import Mathlib

/-!
# Verification of the simple_orm filter compiler and CRUD handlers

A shallow embedding of the `simple_orm` Python package: the condition
compiler (`src/simple_orm/query/_helpers.py`), the query builder
(`src/simple_orm/query/builder.py`), the generic operation handlers
(`handlers/*.py`, taking the final version of each file), and the
schema-binding logic (`models/base.py`).

Python values that flow through filter mappings are embedded as the
inductive type `Value`; SQLAlchemy boolean expressions as the inductive
`Condition`; the relational engine (an external collaborator of the
package) is modelled by executable `runSelect` / `runDelete` functions
that filter, sort and slice an in-memory list of records.
-/

/-- A Python value as it appears in payloads, filter mappings and operator
maps: `None`, booleans, ints, strings, dates, lists and dicts.  Dicts are
kept in insertion order, mirroring Python dict iteration. -/
inductive Value where
  | null
  | bool (b : Bool)
  | int (n : Int)
  | str (s : String)
  | date (y m d : Nat)
  | list (vs : List Value)
  | dict (entries : List (String × Value))

/-- `isinstance(value, dict)` — the test `parse_condition` uses to pick the
operator-map branch. -/
def Value.isDict : Value → Bool
  | .dict _ => true
  | _ => false

/-- Python truthiness (`bool(val)`), used by the `isnull` / `isnotnull`
operator lambdas. -/
def Value.truthy : Value → Bool
  | .null => false
  | .bool b => b
  | .int n => n ≠ 0
  | .str s => s ≠ ""
  | .date _ _ _ => true
  | .list vs => !vs.isEmpty
  | .dict es => !es.isEmpty

/-- Python f-string rendering of a value (`f'{val}%'` in the
`startswith` / `endswith` operator lambdas).  Exact for strings and ints —
the operand types those operators are used with; a coarse rendering is
used for the remaining constructors. -/
def Value.pyStr : Value → String
  | .str s => s
  | .int n => toString n
  | .bool b => if b then "True" else "False"
  | .null => "None"
  | .date y m d => s!"{y}-{m}-{d}"
  | .list _ => "[...]"
  | .dict _ => "\x7b...\x7d"

mutual

/-- Structural value equality, the engine model of the `=` comparison
produced by `column == value`.  `null == null` is `true`, matching
SQLAlchemy's translation of `column == None` into `IS NULL`. -/
def vEq : Value → Value → Bool
  | .null, .null => true
  | .bool a, .bool b => a == b
  | .int a, .int b => a == b
  | .str a, .str b => a == b
  | .date y m d, .date y2 m2 d2 => y == y2 && m == m2 && d == d2
  | .list xs, .list ys => vEqList xs ys
  | .dict xs, .dict ys => vEqDict xs ys
  | _, _ => false

/-- Elementwise equality of value lists (helper of `vEq`). -/
def vEqList : List Value → List Value → Bool
  | [], [] => true
  | a :: as, b :: bs => vEq a b && vEqList as bs
  | _, _ => false

/-- Elementwise equality of dict entry lists (helper of `vEq`). -/
def vEqDict : List (String × Value) → List (String × Value) → Bool
  | [], [] => true
  | (k, a) :: as, (k2, b) :: bs => k == k2 && vEq a b && vEqDict as bs
  | _, _ => false

end

/-- Comparison between two values of the same scalar kind; `none` for
incomparable kinds (the engine model of `<`, `<=`, `>`, `>=`, `BETWEEN`
on a column: comparisons involving `NULL` or mismatched kinds are not
satisfied). -/
def vCompare : Value → Value → Option Ordering
  | .int a, .int b => some (compare a b)
  | .str a, .str b => some (compare a b)
  | .bool a, .bool b => some (compare (if a then (1 : Nat) else 0) (if b then 1 else 0))
  | .date y m d, .date y2 m2 d2 =>
      some ((compare y y2).then ((compare m m2).then (compare d d2)))
  | _, _ => none

/-- SQL `LIKE` pattern matching over characters: `%` matches any sequence,
`_` matches one character. -/
def likeChars : List Char → List Char → Bool
  | [], [] => true
  | [], _ :: _ => false
  | '%' :: ps, [] => likeChars ps []
  | '%' :: ps, c :: ss => likeChars ps (c :: ss) || likeChars ('%' :: ps) ss
  | '_' :: ps, _ :: ss => likeChars ps ss
  | '_' :: _, [] => false
  | p :: ps, c :: ss => p == c && likeChars ps ss
  | _ :: _, [] => false
termination_by ps ss => (ps.length, ss.length)

/-- SQL `LIKE` on strings. -/
def likeMatch (pattern s : String) : Bool :=
  likeChars pattern.toList s.toList

/-- A SQLAlchemy boolean expression over one record type's columns, as
built by the `OPERATORS` table, `parse_condition` and the handlers. -/
inductive Condition where
  | eq (col : String) (v : Value)
  | ne (col : String) (v : Value)
  | gt (col : String) (v : Value)
  | ge (col : String) (v : Value)
  | lt (col : String) (v : Value)
  | le (col : String) (v : Value)
  | inList (col : String) (v : Value)
  | like (col : String) (v : Value)
  | ilike (col : String) (v : Value)
  | contains (col : String) (v : Value)
  | between (col : String) (lo hi : Value)
  | isNull (col : String)
  | isNotNull (col : String)
  | extractEq (part : String) (col : String) (v : Value)
  | not (c : Condition)
  | and (cs : List Condition)
  | or (cs : List Condition)

/-- A record (row) held by the engine: an association of column names to
values. -/
def Record := List (String × Value)

/-- Column access on a record; absent columns read as SQL `NULL`. -/
def getField (r : Record) (f : String) : Value :=
  match r.find? (fun p => p.1 == f) with
  | some p => p.2
  | none => .null

/-- `extract('year'|'month'|'day', col)` on a date value. -/
def extractPart (part : String) : Value → Option Int
  | .date y m d =>
      if part = "year" then some (Int.ofNat y)
      else if part = "month" then some (Int.ofNat m)
      else if part = "day" then some (Int.ofNat d)
      else none
  | _ => none

mutual

/-- Engine-model evaluation of a compiled condition against one record. -/
def evalCond (r : Record) : Condition → Bool
  | .eq col v => vEq (getField r col) v
  | .ne col v =>
      match getField r col, v with
      | .null, _ => false
      | x, .null => !(vEq x .null)
      | x, v' => !(vEq x v')
  | .gt col v => vCompare (getField r col) v == some .gt
  | .ge col v => vCompare (getField r col) v == some .gt || vCompare (getField r col) v == some .eq
  | .lt col v => vCompare (getField r col) v == some .lt
  | .le col v => vCompare (getField r col) v == some .lt || vCompare (getField r col) v == some .eq
  | .inList col v =>
      match v with
      | .list vs => vs.any (fun x => vEq (getField r col) x)
      | _ => false
  | .like col v =>
      match getField r col, v with
      | .str s, .str pat => likeMatch pat s
      | _, _ => false
  | .ilike col v =>
      match getField r col, v with
      | .str s, .str pat => likeMatch pat.toLower s.toLower
      | _, _ => false
  | .contains col v =>
      match getField r col, v with
      | .str s, .str sub => s.toList.tails.any (fun t => sub.toList.isPrefixOf t)
      | _, _ => false
  | .between col lo hi =>
      (vCompare lo (getField r col) == some .lt || vCompare lo (getField r col) == some .eq)
        && (vCompare (getField r col) hi == some .lt || vCompare (getField r col) hi == some .eq)
  | .isNull col => vEq (getField r col) .null
  | .isNotNull col => !(vEq (getField r col) .null)
  | .extractEq part col v =>
      match extractPart part (getField r col) with
      | some n => vEq (.int n) v
      | none => false
  | .not c => !(evalCond r c)
  | .and cs => evalCondAll r cs
  | .or cs => evalCondAny r cs

/-- Conjunction of a condition list (`and_(*conditions)`). -/
def evalCondAll (r : Record) : List Condition → Bool
  | [] => true
  | c :: cs => evalCond r c && evalCondAll r cs

/-- Disjunction of a condition list (`or_(*conditions)`). -/
def evalCondAny (r : Record) : List Condition → Bool
  | [] => false
  | c :: cs => evalCond r c || evalCondAny r cs

end

theorem evalCondAll_eq_all (r : Record) (cs : List Condition) :
    evalCondAll r cs = cs.all (fun c => evalCond r c) := by
  induction cs with
  | nil => simp [evalCondAll]
  | cons c cs ih => simp [evalCondAll, ih]

theorem evalCondAny_eq_any (r : Record) (cs : List Condition) :
    evalCondAny r cs = cs.any (fun c => evalCond r c) := by
  induction cs with
  | nil => simp [evalCondAny]
  | cons c cs ih => simp [evalCondAny, ih]

/-- A declared record type: class name, declared fields, and the mapper's
primary-key column list (`inspect(model_class).primary_key`). -/
structure ModelClass where
  name : String
  fields : List String
  primary_key : List String

/-- `hasattr(model_class, field_name)` restricted to declared fields — the
dynamic attribute probe used by `parse_condition` and the handler filter
loops. -/
def ModelClass.hasattr (m : ModelClass) (f : String) : Bool :=
  m.fields.contains f

/-- The `ValueError` / `SchemaValidationError` family raised by the query
layer and the handlers; each constructor keeps the data interpolated into
the Python message. -/
inductive QueryError where
  | fieldNotFound (field : String) (model : String)
  | unsupportedOperator (op : String)
  | unsupportedOperation (op : String)
  | operandError
  | schemaValidation (model : String) (errors : List (String × String))

/-- The keys of the `OPERATORS` dict in `query/_helpers.py`, in source
order. -/
def OPERATORS_KEYS : List String :=
  ["gt", "gte", "lt", "lte", "ne", "in", "not_in", "like", "contains",
   "startswith", "endswith", "ilike", "icontains", "istartswith", "iendswith",
   "range", "between", "not_between", "isnull", "isnotnull",
   "year", "month", "day"]

/-- `val[0]` / `val[1]` extraction for the `range` / `between` lambdas;
`.error .operandError` models the `TypeError` / `IndexError` Python raises
when the operand is not a sequence of at least two elements. -/
def betweenOperand (col : String) (val : Value) : Except QueryError Condition :=
  match val with
  | .list (a :: b :: _) => .ok (.between col a b)
  | _ => .error .operandError

/-- The `OPERATORS` lookup-and-apply step: `OPERATORS[operator](column,
operator_value)` when `operator in OPERATORS`, and the
`"Unsupported operator"` `ValueError` otherwise. -/
def applyOperator (op : String) (col : String) (val : Value) : Except QueryError Condition :=
  if op = "gt" then .ok (.gt col val)
  else if op = "gte" then .ok (.ge col val)
  else if op = "lt" then .ok (.lt col val)
  else if op = "lte" then .ok (.le col val)
  else if op = "ne" then .ok (.ne col val)
  else if op = "in" then .ok (.inList col val)
  else if op = "not_in" then .ok (.not (.inList col val))
  else if op = "like" then .ok (.like col val)
  else if op = "contains" then .ok (.contains col val)
  else if op = "startswith" then .ok (.like col (.str (val.pyStr ++ "%")))
  else if op = "endswith" then .ok (.like col (.str ("%" ++ val.pyStr)))
  else if op = "ilike" then .ok (.ilike col val)
  else if op = "icontains" then .ok (.ilike col (.str ("%" ++ val.pyStr ++ "%")))
  else if op = "istartswith" then .ok (.ilike col (.str (val.pyStr ++ "%")))
  else if op = "iendswith" then .ok (.ilike col (.str ("%" ++ val.pyStr)))
  else if op = "range" then betweenOperand col val
  else if op = "between" then betweenOperand col val
  else if op = "not_between" then (betweenOperand col val).map .not
  else if op = "isnull" then .ok (if val.truthy then .isNull col else .isNotNull col)
  else if op = "isnotnull" then .ok (if val.truthy then .isNotNull col else .isNull col)
  else if op = "year" then .ok (.extractEq "year" col val)
  else if op = "month" then .ok (.extractEq "month" col val)
  else if op = "day" then .ok (.extractEq "day" col val)
  else .error (.unsupportedOperator op)

/-- One iteration of `parse_condition`'s operator loop: `exact` compiles
to equality, recognized operators through the `OPERATORS` table, anything
else raises. -/
def compileEntry (col : String) (entry : String × Value) : Except QueryError Condition :=
  if entry.1 = "exact" then .ok (.eq col entry.2)
  else applyOperator entry.1 col entry.2

/-- The operator loop of `parse_condition`: compiles the entries of an
operator map in order, stopping at the first error — exactly like the
Python `for` loop whose body may `raise`. -/
def compileEntries (col : String) : List (String × Value) → Except QueryError (List Condition)
  | [] => .ok []
  | e :: rest => do
      let c ← compileEntry col e
      let cs ← compileEntries col rest
      .ok (c :: cs)

/-- `parse_condition(model_class, field_name, value)` from
`query/_helpers.py`: rejects undeclared fields, compiles a literal to an
equality, and an operator map entry-by-entry, conjoining multiple entries
with `and_`. -/
def parse_condition (model_class : ModelClass) (field_name : String) (value : Value) :
    Except QueryError Condition :=
  if ¬ model_class.hasattr field_name then
    .error (.fieldNotFound field_name model_class.name)
  else
    match value with
    | .dict entries => do
        let conditions ← compileEntries field_name entries
        match conditions with
        | [c] => .ok c
        | cs => .ok (.and cs)
    | v => .ok (.eq field_name v)

/-- The running example record type used by concrete counterexamples and
witnesses: `class User(BaseModel)` with an integer primary key `id` and
the fields `id`, `name`, `age`. -/
def userModel : ModelClass :=
  { name := "User", fields := ["id", "name", "age"], primary_key := ["id"] }

example : parse_condition userModel "age" (.dict [("gte", .int 18)]) = .ok (.ge "age" (.int 18)) := rfl
example : parse_condition userModel "age" (.int 18) = .ok (.eq "age" (.int 18)) := rfl
example : parse_condition userModel "oops" (.int 18) = .error (.fieldNotFound "oops" "User") := rfl
example : parse_condition userModel "age" (.dict [("gte", .int 18), ("lte", .int 65)])
    = .ok (.and [.ge "age" (.int 18), .le "age" (.int 65)]) := rfl

/-- A bound pydantic schema class, abstracted to its observable behaviour:
`schema_class(**data)` followed by `model_dump(exclude_unset=True)` either
returns a normalized mapping or fails with a list of `(location, message)`
field errors (`e.errors()`). -/
def Schema := List (String × Value) → Except (List (String × String)) (List (String × Value))

/-- `_validate_schema(schema_class, data)`, textually duplicated in every
handler: a missing schema or an empty mapping is forwarded unvalidated;
otherwise a pydantic failure is re-raised as `SchemaValidationError`. -/
def validate_schema (model_name : String) (schema_class : Option Schema)
    (data : List (String × Value)) : Except QueryError (List (String × Value)) :=
  match schema_class with
  | none => .ok data
  | some s =>
      if data.isEmpty then .ok data
      else
        match s data with
        | .ok validated => .ok validated
        | .error errs => .error (.schemaValidation model_name errs)

/-- The filter loop shared verbatim by the Find, Fetch, Count, Update and
Delete `_build_query` methods:
`for key, value in validated_data.items(): if hasattr(model_class, key):
stmt = stmt.where(column == value)` — undeclared keys are silently
skipped and every kept pair becomes a plain equality. -/
def applyEqFilters (mc : ModelClass) (validated : List (String × Value)) : List Condition :=
  validated.foldl
    (fun acc p => if mc.hasattr p.1 then acc ++ [Condition.eq p.1 p.2] else acc) []

/-- A compiled SELECT statement as assembled by Find / Fetch: conjoined
WHERE clauses, ORDER BY columns tagged with a descending flag, and the
offset / limit actually applied. -/
structure SelectStmt where
  model : String
  whereList : List Condition
  orderBy : List (String × Bool)
  offsetVal : Option Nat
  limitVal : Option Nat

/-- A compiled DELETE statement (`delete(model_class)` plus WHERE
clauses). -/
structure DeleteStmt where
  model : String
  whereList : List Condition

/-- A compiled UPDATE statement (`update(model_class)` plus WHERE clauses
and the SET payload). -/
structure UpdateStmt where
  model : String
  whereList : List Condition
  values : List (String × Value)

/-- `Find._build_query` (`handlers/find.py`): validate the filter, then a
SELECT with one equality WHERE clause per declared key. -/
def find_build_query (mc : ModelClass) (filter_schema : Option Schema)
    (filter_data : List (String × Value)) : Except QueryError SelectStmt := do
  let validated ← validate_schema mc.name filter_schema filter_data
  .ok { model := mc.name, whereList := applyEqFilters mc validated,
        orderBy := [], offsetVal := none, limitVal := none }

/-- `Count._build_query` (`handlers/count.py`, final version): validate
the filter, then `select(func.count())` with the same equality WHERE
loop. -/
def count_build_query (mc : ModelClass) (filter_schema : Option Schema)
    (filter_data : List (String × Value)) : Except QueryError (List Condition) := do
  let validated ← validate_schema mc.name filter_schema filter_data
  .ok (applyEqFilters mc validated)

/-- `Delete._build_query` (`handlers/delete.py`, final version). -/
def delete_build_query (mc : ModelClass) (filter_schema : Option Schema)
    (filter_data : List (String × Value)) : Except QueryError DeleteStmt := do
  let validated ← validate_schema mc.name filter_schema filter_data
  .ok { model := mc.name, whereList := applyEqFilters mc validated }

/-- `Update._build_query` (`handlers/update.py`, final version): validate
filter and payload independently, equality WHERE loop, then
`stmt.values(**validated_payload)`. -/
def update_build_query (mc : ModelClass) (update_schema filter_schema : Option Schema)
    (filter_data payload : List (String × Value)) : Except QueryError UpdateStmt := do
  let validated_filter ← validate_schema mc.name filter_schema filter_data
  let validated_payload ← validate_schema mc.name update_schema payload
  .ok { model := mc.name, whereList := applyEqFilters mc validated_filter,
        values := validated_payload }

/-- `Create._build_query` (`handlers/create.py`, final version): validate
the payload and instantiate `model_class(**validated_data)`; the new
instance is embedded as its field assignment. -/
def create_build_query (mc : ModelClass) (create_schema : Option Schema)
    (payload : List (String × Value)) : Except QueryError Record := do
  let validated ← validate_schema mc.name create_schema payload
  .ok validated

/-- The `order_by` application loop of `Fetch._build_query`: a leading
`-` selects descending order, and unknown fields are silently skipped. -/
def fetchOrderFields (mc : ModelClass) (order_fields : List String) : List (String × Bool) :=
  order_fields.foldl
    (fun acc field =>
      if field.startsWith "-" then
        let field_name := field.drop 1
        if mc.hasattr field_name then acc ++ [(field_name, true)] else acc
      else
        if mc.hasattr field then acc ++ [(field, false)] else acc) []

/-- `Fetch._build_query` (`handlers/fetch.py`): validate the filter, the
equality WHERE loop, explicit ordering or the default ascending
primary-key ordering (`_get_primary_key_column`), then Python-truthy
offset and limit. -/
def fetch_build_query (mc : ModelClass) (filter_schema : Option Schema)
    (filter_data : List (String × Value)) (limit offset : Option Nat)
    (order_by : List String) : Except QueryError SelectStmt := do
  let validated ← validate_schema mc.name filter_schema filter_data
  let ob :=
    if !order_by.isEmpty then fetchOrderFields mc order_by
    else
      match mc.primary_key.head? with
      | some pk => [(pk, false)]
      | none => []
  let off := match offset with
    | some o => if o ≠ 0 then some o else none
    | none => none
  let lim := match limit with
    | some l => if l ≠ 0 then some l else none
    | none => none
  .ok { model := mc.name, whereList := applyEqFilters mc validated,
        orderBy := ob, offsetVal := off, limitVal := lim }

/-- A constructor rank used to make the engine's ORDER BY comparison total
across value kinds (a real column is homogeneous, so cross-kind ordering
is never observable; `NULL`s sort first, as in ascending SQL order). -/
def vrank : Value → Nat
  | .null => 0
  | .bool _ => 1
  | .int _ => 2
  | .date _ _ _ => 3
  | .str _ => 4
  | .list _ => 5
  | .dict _ => 6

/-- The engine's total non-decreasing comparison on column values: ints
and strings by their natural order, other kinds by rank (equal-rank
non-scalar values compare as ties). -/
def vle (a b : Value) : Bool :=
  match a, b with
  | .int x, .int y => decide (x ≤ y)
  | .str x, .str y => decide (x ≤ y)
  | .date y1 m1 d1, .date y2 m2 d2 =>
      decide (y1 < y2 ∨ (y1 = y2 ∧ (m1 < m2 ∨ (m1 = m2 ∧ d1 ≤ d2))))
  | a, b => decide (vrank a ≤ vrank b)

theorem vle_total (a b : Value) : vle a b = true ∨ vle b a = true := by
  rcases a <;> rcases b <;> simp [vle, vrank] <;>
    first
    | omega
    | exact le_total _ _

theorem vle_trans {a b c : Value} (hab : vle a b = true) (hbc : vle b c = true) :
    vle a c = true := by
  rcases a <;> rcases b <;> rcases c <;>
    simp_all [vle, vrank] <;>
      first
      | omega
      | exact le_trans hab hbc

/-- The ORDER BY comparison induced by a sort specification: compare the
listed columns in order, descending columns reversed, moving to the next
column on ties. -/
def recordLe (spec : List (String × Bool)) (r1 r2 : Record) : Bool :=
  match spec with
  | [] => true
  | (f, desc) :: rest =>
      let a := getField r1 f
      let b := getField r2 f
      let x := if desc then b else a
      let y := if desc then a else b
      if vle x y && vle y x then recordLe rest r1 r2
      else vle x y

theorem recordLe_single (f : String) (r1 r2 : Record) :
    recordLe [(f, false)] r1 r2 = vle (getField r1 f) (getField r2 f) := by
  rcases h1 : vle (getField r1 f) (getField r2 f) <;>
    rcases h2 : vle (getField r2 f) (getField r1 f) <;>
      simp [recordLe, h1, h2]

instance recordLeSingleTotal (f : String) :
    IsTotal Record (fun r1 r2 => recordLe [(f, false)] r1 r2 = true) :=
  ⟨fun r1 r2 => by rw [recordLe_single, recordLe_single]; exact vle_total _ _⟩

instance recordLeSingleTrans (f : String) :
    IsTrans Record (fun r1 r2 => recordLe [(f, false)] r1 r2 = true) :=
  ⟨fun r1 r2 r3 h12 h23 => by
    rw [recordLe_single] at *
    exact vle_trans h12 h23⟩

/-- The engine's ORDER BY: a sort of the selected rows by the compiled
comparison. -/
def sortRecords (spec : List (String × Bool)) (rows : List Record) : List Record :=
  List.insertionSort (fun r1 r2 => recordLe spec r1 r2 = true) rows

/-- Engine model of executing a SELECT statement against a store: WHERE
filtering, then ORDER BY, then OFFSET and LIMIT — the semantics assumed
of the external engine collaborator. -/
def runSelect (store : List Record) (stmt : SelectStmt) : List Record :=
  let rows := store.filter (fun r => stmt.whereList.all (fun c => evalCond r c))
  let rows := if stmt.orderBy.isEmpty then rows else sortRecords stmt.orderBy rows
  let rows := match stmt.offsetVal with
    | some o => rows.drop o
    | none => rows
  match stmt.limitVal with
  | some l => rows.take l
  | none => rows

/-- Engine model of executing a DELETE statement: the surviving store and
the reported `rowcount`. -/
def runDelete (store : List Record) (stmt : DeleteStmt) : List Record × Nat :=
  ((store.filter fun r => !stmt.whereList.all fun c => evalCond r c),
   (store.filter fun r => stmt.whereList.all fun c => evalCond r c).length)

/-- One observable unit-of-work call on the borrowed session. -/
inductive EngineOp where
  | execute
  | commit
  | rollback
  | refresh

/-- `Find.__call__`: build inside the `try`, execute on success and take
the first row; on any failure roll back and re-raise.  The second
component is the trace of engine I/O calls actually made. -/
def find_call (mc : ModelClass) (filter_schema : Option Schema) (store : List Record)
    (filter_data : List (String × Value)) :
    Except QueryError (Option Record) × List EngineOp :=
  match find_build_query mc filter_schema filter_data with
  | .ok stmt => (.ok (runSelect store stmt).head?, [.execute])
  | .error e => (.error e, [.rollback])

/-- `Delete.__call__`: build, execute, commit, return `rowcount`; on any
failure roll back and re-raise.  Returns the result, the surviving store
and the engine I/O trace. -/
def delete_call (mc : ModelClass) (filter_schema : Option Schema) (store : List Record)
    (filter_data : List (String × Value)) :
    Except QueryError Nat × List Record × List EngineOp :=
  match delete_build_query mc filter_schema filter_data with
  | .ok stmt =>
      let (store2, n) := runDelete store stmt
      (.ok n, store2, [.execute, .commit])
  | .error e => (.error e, store, [.rollback])

/-- `QueryBuilder` (`query/builder.py`): a model class plus the
accumulated `_where_conditions` groups. -/
structure QueryBuilder where
  model_class : ModelClass
  where_conditions : List Condition

/-- The `parse_condition` loop of `QueryBuilder.where`, erroring at the
first entry that fails to compile. -/
def parseConds (mc : ModelClass) : List (String × Value) → Except QueryError (List Condition)
  | [] => .ok []
  | p :: rest => do
      let c ← parse_condition mc p.1 p.2
      let cs ← parseConds mc rest
      .ok (c :: cs)

/-- `QueryBuilder.where` (named `where_` because `where` is reserved in
Lean): an empty conditions mapping returns the builder unchanged; a
non-empty mapping is compiled entry-by-entry and combined according to
the `operation` tag, with unsupported tags raising
`ValueError("Unsupported operation: ...")` before any group is
appended. -/
def QueryBuilder.where_ (qb : QueryBuilder) (conditions : List (String × Value))
    (operation : String) : Except QueryError QueryBuilder :=
  if conditions.isEmpty then .ok qb
  else
    match parseConds qb.model_class conditions with
    | .error e => .error e
    | .ok parsed =>
        if operation = "AND" then
          .ok { qb with where_conditions := qb.where_conditions ++ [.and parsed] }
        else if operation = "OR" then
          .ok { qb with where_conditions := qb.where_conditions ++ [.or parsed] }
        else if operation = "NOT_ALL" then
          .ok { qb with where_conditions := qb.where_conditions ++ [.not (.and parsed)] }
        else if operation = "NOT_ANY" then
          .ok { qb with where_conditions := qb.where_conditions ++ [.not (.or parsed)] }
        else .error (.unsupportedOperation operation)

/-- An attribute of the validation-schema class: either a class
(`isinstance(attr, type)` holds — carrying its behaviour as a `Schema`)
or some non-type value. -/
inductive PyAttr where
  | typeAttr (s : Schema)
  | valueAttr

/-- Extracting the bound schema from a (checked) attribute. -/
def PyAttr.toSchema : PyAttr → Option Schema
  | .typeAttr s => some s
  | .valueAttr => none

/-- The validation-schema triple as passed to `bind_crud`: the class
`__name__` and the three optional `CreateSchema` / `UpdateSchema` /
`FilterSchema` attributes. -/
structure ValidationSchemaClass where
  name : String
  createSchema : Option PyAttr
  updateSchema : Option PyAttr
  filterSchema : Option PyAttr

/-- `SchemaBindingError`, with the data of each of the three messages
raised by `BaseModel._validation_schema_check`. -/
inductive SchemaBindingError where
  | nameMismatch (schema_name model_name : String)
  | missingSchemas (schema_name : String) (missing : List String)
  | invalidSchemas (schema_name : String) (invalid : List String)

/-- `BaseModel._validation_schema_check`: name equality first, then the
presence of the three sub-schemas, then that each one is a class. -/
def validation_schema_check (mc : ModelClass) (vs : ValidationSchemaClass) :
    Except SchemaBindingError Unit := do
  if vs.name ≠ mc.name then
    throw (.nameMismatch vs.name mc.name)
  let missing :=
    (if vs.createSchema.isNone then ["CreateSchema"] else []) ++
    (if vs.updateSchema.isNone then ["UpdateSchema"] else []) ++
    (if vs.filterSchema.isNone then ["FilterSchema"] else [])
  if !missing.isEmpty then
    throw (.missingSchemas vs.name missing)
  let invalid :=
    (match vs.createSchema with | some .valueAttr => ["CreateSchema"] | _ => []) ++
    (match vs.updateSchema with | some .valueAttr => ["UpdateSchema"] | _ => []) ++
    (match vs.filterSchema with | some .valueAttr => ["FilterSchema"] | _ => [])
  if !invalid.isEmpty then
    throw (.invalidSchemas vs.name invalid)
  return ()

/-- The handler attributes `bind_crud` assigns onto the model class; a
`none` field is an attribute that was never bound. -/
structure BoundHandlers where
  createH : Option (ModelClass × Option Schema) := none
  updateH : Option (ModelClass × Option Schema × Option Schema) := none
  fetchH : Option (ModelClass × Option Schema) := none
  findH : Option (ModelClass × Option Schema) := none
  countH : Option (ModelClass × Option Schema) := none
  deleteH : Option (ModelClass × Option Schema) := none
  update_fields_bound : Bool := false
  destroy_bound : Bool := false

/-- `BaseModel.bind_crud`: check the validation schema (if supplied),
extract the three sub-schemas, then assign all eight handler
attributes.  All assignments happen strictly after the check, so an
error leaves the input state untouched. -/
def bind_crud (st : BoundHandlers) (mc : ModelClass)
    (validation_schema : Option ValidationSchemaClass) :
    Except SchemaBindingError BoundHandlers := do
  match validation_schema with
  | some vs => validation_schema_check mc vs
  | none => pure ()
  let (create_schema, update_schema, filter_schema) :=
    match validation_schema with
    | some vs =>
        ((vs.createSchema.bind PyAttr.toSchema),
         (vs.updateSchema.bind PyAttr.toSchema),
         (vs.filterSchema.bind PyAttr.toSchema))
    | none => (none, none, none)
  let _ := st
  return { createH := some (mc, create_schema),
           updateH := some (mc, update_schema, filter_schema),
           fetchH := some (mc, filter_schema),
           findH := some (mc, filter_schema),
           countH := some (mc, filter_schema),
           deleteH := some (mc, filter_schema),
           update_fields_bound := true,
           destroy_bound := true }

/-- Calling `bind_crud` as Python does: a raised `SchemaBindingError`
propagates to the caller and the class object keeps its previous
attributes. -/
def bind_crud_result (st : BoundHandlers) (mc : ModelClass)
    (validation_schema : Option ValidationSchemaClass) : BoundHandlers :=
  match bind_crud st mc validation_schema with
  | .ok st2 => st2
  | .error _ => st

/-! ## Helper lemmas -/

theorem applyEqFilters_foldl (mc : ModelClass) (l : List (String × Value))
    (acc : List Condition) :
    l.foldl (fun acc p => if mc.hasattr p.1 then acc ++ [Condition.eq p.1 p.2] else acc) acc
      = acc ++ (l.filter (fun p => mc.hasattr p.1)).map (fun p => Condition.eq p.1 p.2) := by
  induction l generalizing acc with
  | nil => simp
  | cons p rest ih => rcases h : mc.hasattr p.1 <;> simp [h, ih]

theorem applyEqFilters_eq (mc : ModelClass) (l : List (String × Value)) :
    applyEqFilters mc l
      = (l.filter (fun p => mc.hasattr p.1)).map (fun p => Condition.eq p.1 p.2) := by
  simpa [applyEqFilters] using applyEqFilters_foldl mc l []

theorem except_bind_ok {α β ε : Type} (a : α) (f : α → Except ε β) :
    (Except.ok a >>= f) = f a := rfl

theorem except_bind_error {α β ε : Type} (e : ε) (f : α → Except ε β) :
    ((Except.error e : Except ε α) >>= f) = .error e := rfl

theorem except_throw {α ε : Type} (e : ε) : (throw e : Except ε α) = .error e := rfl

theorem compileEntries_ok_forall {col : String} {entries : List (String × Value)}
    {cs : List Condition} (h : compileEntries col entries = .ok cs) :
    ∀ e ∈ entries, ∃ c, compileEntry col e = .ok c := by
  induction entries generalizing cs with
  | nil => simp
  | cons e rest ih =>
      intro x hx
      rcases he : compileEntry col e with e2 | c
      · rw [compileEntries, he, except_bind_error] at h
        cases h
      · rcases hr : compileEntries col rest with e2 | cs2
        · rw [compileEntries, he, except_bind_ok, hr, except_bind_error] at h
          cases h
        · rcases List.mem_cons.mp hx with hx | hx
          · exact hx ▸ ⟨c, he⟩
          · exact ih hr x hx

theorem compileEntries_forall2 {col : String} {entries : List (String × Value)}
    {cs : List Condition} (h : compileEntries col entries = .ok cs) :
    List.Forall₂ (fun e c => compileEntry col e = .ok c) entries cs := by
  induction entries generalizing cs with
  | nil =>
      rw [compileEntries] at h
      cases h
      exact .nil
  | cons e rest ih =>
      rcases he : compileEntry col e with e2 | c
      · rw [compileEntries, he, except_bind_error] at h
        cases h
      · rcases hr : compileEntries col rest with e2 | cs2
        · rw [compileEntries, he, except_bind_ok, hr, except_bind_error] at h
          cases h
        · rw [compileEntries, he, except_bind_ok, hr, except_bind_ok] at h
          cases h
          exact .cons he (ih hr)

theorem compileEntries_length {col : String} {entries : List (String × Value)}
    {cs : List Condition} (h : compileEntries col entries = .ok cs) :
    cs.length = entries.length :=
  ((compileEntries_forall2 h).length_eq).symm

/-! ## Claim theorems -/

/-- Claim C3: `Delete` with an empty filter mapping validates trivially,
compiles to a DELETE with no WHERE clause, and executing it removes every
record of the store, reporting the full count. -/
theorem delete_empty_filter_removes_all (mc : ModelClass) (filter_schema : Option Schema)
    (store : List Record) :
    delete_build_query mc filter_schema [] = .ok { model := mc.name, whereList := [] } ∧
    runDelete store { model := mc.name, whereList := [] } = ([], store.length) := by
  constructor
  · rcases filter_schema <;> rfl
  · simp [runDelete]

/-- Claim C10: `_validate_schema` forwards an empty mapping unvalidated —
for every bound schema, including one that would reject the empty input,
no Schema Validation Error is raised and every handler build succeeds on
the empty mapping. -/
theorem empty_mapping_bypasses_validation (mc : ModelClass) (s : Schema) :
    validate_schema mc.name (some s) [] = .ok [] ∧
    create_build_query mc (some s) [] = .ok [] ∧
    update_build_query mc (some s) (some s) [] []
      = .ok { model := mc.name, whereList := [], values := [] } ∧
    find_build_query mc (some s) []
      = .ok { model := mc.name, whereList := [], orderBy := [],
              offsetVal := none, limitVal := none } ∧
    count_build_query mc (some s) [] = .ok [] ∧
    delete_build_query mc (some s) [] = .ok { model := mc.name, whereList := [] } :=
  ⟨rfl, rfl, rfl, rfl, rfl, rfl⟩

/-- Claim C7: compiling a declared field with a literal value and with
the operator map `{"exact": value}` produce the same equality
condition. -/
theorem literal_equals_exact (mc : ModelClass) (f : String) (v : Value)
    (hf : mc.hasattr f = true) (hv : v.isDict = false) :
    parse_condition mc f v = .ok (.eq f v) ∧
    parse_condition mc f (.dict [("exact", v)]) = .ok (.eq f v) := by
  constructor
  · rcases v <;> simp_all [parse_condition, Value.isDict]
  · simp [parse_condition, hf, compileEntries, compileEntry, except_bind_ok]

/-- Witness for `literal_equals_exact` at `User.age` and the literal
`21`. -/
theorem literal_equals_exact_witness :
    userModel.hasattr "age" = true ∧ (Value.int 21).isDict = false ∧
    (parse_condition userModel "age" (.int 21) = .ok (.eq "age" (.int 21)) ∧
     parse_condition userModel "age" (.dict [("exact", .int 21)]) = .ok (.eq "age" (.int 21))) :=
  ⟨rfl, rfl, literal_equals_exact userModel "age" (.int 21) rfl rfl⟩

theorem applyOperator_unsupported {k : String} (hk : k ∉ OPERATORS_KEYS)
    (col : String) (v : Value) :
    applyOperator k col v = .error (.unsupportedOperator k) := by
  simp only [OPERATORS_KEYS, List.mem_cons, List.mem_singleton, not_or,
    List.not_mem_nil, or_false] at hk
  obtain ⟨h1, h2, h3, h4, h5, h6, h7, h8, h9, h10, h11, h12, h13, h14, h15,
    h16, h17, h18, h19, h20, h21, h22, h23⟩ := hk
  simp [applyOperator, h1, h2, h3, h4, h5, h6, h7, h8, h9, h10, h11, h12,
    h13, h14, h15, h16, h17, h18, h19, h20, h21, h22, h23]

/-- Claim C8: an operator-map key outside the catalog (and different from
`exact`) makes compilation fail: any operator map containing it compiles
to an error, and the map consisting of just that key raises precisely the
Unsupported Operator Error, for every declared field and operand. -/
theorem unsupported_operator_raises (mc : ModelClass) (f k : String) (v : Value)
    (entries : List (String × Value)) (hf : mc.hasattr f = true)
    (hk : k ∉ OPERATORS_KEYS) (hk2 : k ≠ "exact") (hmem : (k, v) ∈ entries) :
    (∃ e, parse_condition mc f (.dict entries) = .error e) ∧
    parse_condition mc f (.dict [(k, v)]) = .error (.unsupportedOperator k) := by
  have hbad : compileEntry f (k, v) = .error (.unsupportedOperator k) := by
    simp [compileEntry, hk2, applyOperator_unsupported hk]
  constructor
  · rcases hp : parse_condition mc f (.dict entries) with e | c
    · exact ⟨e, rfl⟩
    · exfalso
      rcases hce : compileEntries f entries with e | cs
      · simp [parse_condition, hf, hce, except_bind_error] at hp
      · obtain ⟨c2, hc2⟩ := compileEntries_ok_forall hce (k, v) hmem
        rw [hbad] at hc2
        cases hc2
  · simp [parse_condition, hf, compileEntries, hbad, except_bind_error]

/-- Witness for `unsupported_operator_raises`: the undeclared operator
`regex` on `User.age`, inside `{"gte": 18, "regex": "x"}` and alone. -/
theorem unsupported_operator_raises_witness :
    userModel.hasattr "age" = true ∧
    "regex" ∉ OPERATORS_KEYS ∧ "regex" ≠ "exact" ∧
    ("regex", Value.str "x") ∈ [("gte", Value.int 18), ("regex", Value.str "x")] ∧
    ((∃ e, parse_condition userModel "age"
        (.dict [("gte", .int 18), ("regex", .str "x")]) = .error e) ∧
     parse_condition userModel "age" (.dict [("regex", .str "x")])
        = .error (.unsupportedOperator "regex")) :=
  ⟨rfl, by decide, by decide, by simp,
   unsupported_operator_raises userModel "age" "regex" (.str "x")
     [("gte", .int 18), ("regex", .str "x")] rfl (by decide) (by decide) (by simp)⟩

/-- Claim C6: an operator map with at least two entries compiles to the
`and_` of its per-entry leaf conditions (`List.Forall₂` ties each entry
to its leaf), and the conjunction is satisfied by a record iff every
leaf is. -/
theorem opmap_conjunction_law (mc : ModelClass) (f : String)
    (entries : List (String × Value)) (cs : List Condition) (r : Record)
    (hf : mc.hasattr f = true)
    (hc : compileEntries f entries = .ok cs)
    (hlen : 2 ≤ entries.length) :
    parse_condition mc f (.dict entries) = .ok (.and cs) ∧
    List.Forall₂ (fun e c => compileEntry f e = .ok c) entries cs ∧
    (evalCond r (.and cs) = true ↔ ∀ c ∈ cs, evalCond r c = true) := by
  have hlcs : cs.length = entries.length := compileEntries_length hc
  refine ⟨?_, compileEntries_forall2 hc, ?_⟩
  · rcases cs with _ | ⟨c1, _ | ⟨c2, cs2⟩⟩
    · simp at hlcs; omega
    · simp at hlcs; omega
    · simp [parse_condition, hf, hc, except_bind_ok]
  · rw [show evalCond r (.and cs) = evalCondAll r cs from by simp [evalCond],
      evalCondAll_eq_all]
    simp

/-- Witness for `opmap_conjunction_law`: the inclusive range
`{"gte": 18, "lte": 65}` on `User.age` against a record with age 30. -/
theorem opmap_conjunction_law_witness :
    userModel.hasattr "age" = true ∧
    compileEntries "age" [("gte", Value.int 18), ("lte", Value.int 65)]
      = .ok [.ge "age" (.int 18), .le "age" (.int 65)] ∧
    2 ≤ ([("gte", Value.int 18), ("lte", Value.int 65)] : List (String × Value)).length ∧
    (parse_condition userModel "age" (.dict [("gte", .int 18), ("lte", .int 65)])
        = .ok (.and [.ge "age" (.int 18), .le "age" (.int 65)]) ∧
     List.Forall₂ (fun e c => compileEntry "age" e = .ok c)
        [("gte", Value.int 18), ("lte", Value.int 65)]
        [.ge "age" (.int 18), .le "age" (.int 65)] ∧
     (evalCond [("age", .int 30)] (.and [.ge "age" (.int 18), .le "age" (.int 65)]) = true
        ↔ ∀ c ∈ [Condition.ge "age" (.int 18), Condition.le "age" (.int 65)],
            evalCond [("age", .int 30)] c = true)) :=
  ⟨rfl, rfl, by decide,
   opmap_conjunction_law userModel "age" [("gte", .int 18), ("lte", .int 65)]
     [.ge "age" (.int 18), .le "age" (.int 65)] [("age", .int 30)] rfl rfl (by decide)⟩

/-- The record `User(id=1, name="alice", age=30)` used by concrete
evaluations. -/
def recAlice : Record := [("id", .int 1), ("name", .str "alice"), ("age", .int 30)]

/-- Claim C1 (divergence evidence): the Condition Compiler does raise the
Field Resolution Error for an undeclared filter field, but the `Find`
handler does not — its `_build_query` silently drops the unknown key
(`if hasattr(...)`), the unrestricted SELECT is executed against the
engine, and the first record is returned.  This contradicts the handler's
own docstring ("Raises: ValueError: If filter_data contains invalid field
names"); the same `hasattr` guard is shared by the Fetch, Count, Update
and Delete filter loops. -/
theorem find_unknown_field_silently_executes :
    userModel.hasattr "nonexistent" = false ∧
    parse_condition userModel "nonexistent" (.int 1)
      = .error (.fieldNotFound "nonexistent" "User") ∧
    find_build_query userModel none [("nonexistent", .int 1)]
      = .ok { model := "User", whereList := [], orderBy := [],
              offsetVal := none, limitVal := none } ∧
    find_call userModel none [recAlice] [("nonexistent", .int 1)]
      = (.ok (some recAlice), [.execute]) := by
  exact ⟨rfl, rfl, rfl, rfl⟩

/-- The record `User(id=2, name="bob", age=20)` used by concrete
evaluations. -/
def recBob : Record := [("id", .int 2), ("name", .str "bob"), ("age", .int 20)]

/-- Counterexample to claim C2: the `Delete` handler passes the operator
map `{"gte": 18}` straight into `column == value`, producing an equality
against a dict literal, while the Condition Compiler turns the same pair
into `age >= 18`; on the record with `age = 20` the two predicates
disagree. -/
theorem opmap_treated_as_literal_equality :
    delete_build_query userModel none [("age", .dict [("gte", .int 18)])]
      = .ok { model := "User",
              whereList := [.eq "age" (.dict [("gte", .int 18)])] } ∧
    parse_condition userModel "age" (.dict [("gte", .int 18)])
      = .ok (.ge "age" (.int 18)) ∧
    evalCond recBob (.eq "age" (.dict [("gte", .int 18)])) = false ∧
    evalCond recBob (.ge "age" (.int 18)) = true := by
  refine ⟨rfl, rfl, ?_, ?_⟩
  · simp [evalCond, vEq, getField, recBob]
  · simp [evalCond, vCompare, getField, recBob]
    decide

theorem all_map_eval (r : Record) (fd : List (String × Value)) :
    ((fd.map (fun p => Condition.eq p.1 p.2)).all fun c => evalCond r c)
      = fd.all (fun p => evalCond r (.eq p.1 p.2)) := by
  induction fd with
  | nil => rfl
  | cons p rest ih => simp [ih]

/-- Claim C2 as amended: on filter mappings whose values are all literals
over declared fields, the WHERE list assembled by each of the five
operation handlers (Find, Fetch — for every limit / offset / order
specification —, Count, Update, Delete) coincides with the per-pair
output of the Condition Compiler, and satisfying it is satisfying the
conjunction; operator-map values, however, are compiled by the handlers
as literal equality operands (see `opmap_treated_as_literal_equality`) —
only the Query Builder routes filters through the Condition Compiler. -/
theorem handlers_literal_where_matches_compiler
    (mc : ModelClass) (fd : List (String × Value))
    (hf : ∀ p ∈ fd, mc.hasattr p.1 = true)
    (hlit : ∀ p ∈ fd, p.2.isDict = false) :
    (∀ p ∈ fd, parse_condition mc p.1 p.2 = .ok (.eq p.1 p.2)) ∧
    delete_build_query mc none fd
      = .ok { model := mc.name,
              whereList := fd.map (fun p => Condition.eq p.1 p.2) } ∧
    find_build_query mc none fd
      = .ok { model := mc.name,
              whereList := fd.map (fun p => Condition.eq p.1 p.2),
              orderBy := [], offsetVal := none, limitVal := none } ∧
    (∀ (limit offset : Option Nat) (order_by : List String),
      (fetch_build_query mc none fd limit offset order_by).map
          (fun stmt => stmt.whereList)
        = .ok (fd.map (fun p => Condition.eq p.1 p.2))) ∧
    count_build_query mc none fd = .ok (fd.map (fun p => Condition.eq p.1 p.2)) ∧
    update_build_query mc none none fd []
      = .ok { model := mc.name,
              whereList := fd.map (fun p => Condition.eq p.1 p.2), values := [] } ∧
    ∀ r : Record,
      evalCondAll r (fd.map (fun p => Condition.eq p.1 p.2))
        = fd.all (fun p => evalCond r (.eq p.1 p.2)) := by
  have hfil : fd.filter (fun p => mc.hasattr p.1) = fd :=
    List.filter_eq_self.mpr hf
  have happ : applyEqFilters mc fd = fd.map (fun p => Condition.eq p.1 p.2) := by
    rw [applyEqFilters_eq, hfil]
  refine ⟨?_, ?_, ?_, ?_, ?_, ?_, ?_⟩
  · intro p hp
    have h1 := hf p hp
    have h2 := hlit p hp
    rcases p with ⟨key, v⟩
    rcases v <;> simp_all [parse_condition, Value.isDict]
  · simp [delete_build_query, validate_schema, except_bind_ok, happ]
  · simp [find_build_query, validate_schema, except_bind_ok, happ]
  · intro limit offset order_by
    simp [fetch_build_query, validate_schema, except_bind_ok, happ, Except.map]
  · simp [count_build_query, validate_schema, except_bind_ok, happ]
  · simp [update_build_query, validate_schema, except_bind_ok, happ]
  · intro r
    rw [evalCondAll_eq_all]
    exact all_map_eval r fd

/-- Witness for `handlers_literal_where_matches_compiler` on the literal
filter `{"age": 20, "name": "bob"}`. -/
theorem handlers_literal_where_matches_compiler_witness :
    (∀ p ∈ ([("age", Value.int 20), ("name", Value.str "bob")] : List (String × Value)),
        userModel.hasattr p.1 = true) ∧
    (∀ p ∈ ([("age", Value.int 20), ("name", Value.str "bob")] : List (String × Value)),
        p.2.isDict = false) ∧
    delete_build_query userModel none [("age", .int 20), ("name", .str "bob")]
      = .ok { model := "User",
              whereList := [.eq "age" (.int 20), .eq "name" (.str "bob")] } :=
  ⟨by decide, by decide,
   ((handlers_literal_where_matches_compiler userModel
      [("age", .int 20), ("name", .str "bob")]
      (by decide) (by decide)).2.1)⟩

/-- A fresh `QueryBuilder(User)` with no accumulated groups. -/
def emptyUserQB : QueryBuilder := { model_class := userModel, where_conditions := [] }

/-- Counterexample to claim C9: `where` with an empty conditions mapping
returns the builder unchanged via the `if not conditions: return self`
early exit, so the unsupported tag `"XOR"` raises no Configuration Error
at all. -/
theorem where_empty_mapping_skips_tag_check :
    QueryBuilder.where_ emptyUserQB [] "XOR" = .ok emptyUserQB := rfl

/-- Claim C9 as amended: for a non-empty conditions mapping whose entries
all compile, a combinator tag outside {AND, OR, NOT_ALL, NOT_ANY} raises
the Configuration Error (`"Unsupported operation"`), and the raise
happens before the group append, so the accumulated groups are unchanged;
an empty mapping returns the builder unchanged without consulting the
tag (`where_empty_mapping_skips_tag_check`). -/
theorem where_unsupported_tag_errors (qb : QueryBuilder)
    (conds : List (String × Value)) (op : String) (parsed : List Condition)
    (hne : conds ≠ [])
    (hp : parseConds qb.model_class conds = .ok parsed)
    (hop : op ∉ (["AND", "OR", "NOT_ALL", "NOT_ANY"] : List String)) :
    QueryBuilder.where_ qb conds op = .error (.unsupportedOperation op) := by
  simp only [List.mem_cons, List.mem_singleton, not_or, List.not_mem_nil,
    or_false] at hop
  obtain ⟨h1, h2, h3, h4⟩ := hop
  have hne2 : conds.isEmpty = false := by
    rcases conds with _ | _
    · exact absurd rfl hne
    · rfl
  simp [QueryBuilder.where_, hne2, hp, h1, h2, h3, h4]

/-- Witness for `where_unsupported_tag_errors`: the tag `"XOR"` with the
compilable mapping `{"age": 5}`. -/
theorem where_unsupported_tag_errors_witness :
    ([("age", Value.int 5)] : List (String × Value)) ≠ [] ∧
    parseConds userModel [("age", Value.int 5)] = .ok [.eq "age" (.int 5)] ∧
    "XOR" ∉ (["AND", "OR", "NOT_ALL", "NOT_ANY"] : List String) ∧
    QueryBuilder.where_ emptyUserQB [("age", .int 5)] "XOR"
      = .error (.unsupportedOperation "XOR") :=
  ⟨by simp, rfl, by decide,
   where_unsupported_tag_errors emptyUserQB [("age", .int 5)] "XOR"
     [.eq "age" (.int 5)] (by simp) rfl (by decide)⟩

/-- Claim C5: a validation-schema class whose name differs from the model
class name makes `bind_crud` raise the Schema Binding Error from the
up-front `_validation_schema_check`, before any of the eight handler
assignments runs — the class keeps exactly the attributes it had. -/
theorem bind_crud_name_mismatch (st : BoundHandlers) (mc : ModelClass)
    (vs : ValidationSchemaClass) (h : vs.name ≠ mc.name) :
    bind_crud st mc (some vs) = .error (.nameMismatch vs.name mc.name) ∧
    bind_crud_result st mc (some vs) = st := by
  have hc : validation_schema_check mc vs
      = .error (.nameMismatch vs.name mc.name) := by
    simp [validation_schema_check, h, except_throw, except_bind_error]
  constructor
  · simp [bind_crud, hc, except_bind_error]
  · simp [bind_crud_result, bind_crud, hc, except_bind_error]

/-- A well-formed validation-schema triple whose class is named
`UserSchemas` instead of `User`. -/
def mismatchedSchemas : ValidationSchemaClass :=
  { name := "UserSchemas",
    createSchema := some (.typeAttr (fun d => .ok d)),
    updateSchema := some (.typeAttr (fun d => .ok d)),
    filterSchema := some (.typeAttr (fun d => .ok d)) }

/-- Witness for `bind_crud_name_mismatch`: binding `UserSchemas` onto
`User` starting from an unbound class leaves every handler attribute
unbound. -/
theorem bind_crud_name_mismatch_witness :
    ("UserSchemas" : String) ≠ "User" ∧
    (bind_crud {} userModel (some mismatchedSchemas)
        = .error (.nameMismatch "UserSchemas" "User") ∧
     bind_crud_result {} userModel (some mismatchedSchemas) = {}) :=
  ⟨by decide, bind_crud_name_mismatch {} userModel mismatchedSchemas (by decide)⟩

theorem runSelect_single_order_sorted (store : List Record) (mname : String)
    (wh : List Condition) (pk : String) (off lim : Option Nat) :
    List.Pairwise (fun r1 r2 => vle (getField r1 pk) (getField r2 pk) = true)
      (runSelect store { model := mname, whereList := wh,
                         orderBy := [(pk, false)], offsetVal := off,
                         limitVal := lim }) := by
  have hsorted :
      List.Pairwise (fun r1 r2 => recordLe [(pk, false)] r1 r2 = true)
        (sortRecords [(pk, false)]
          (store.filter (fun r => wh.all (fun c => evalCond r c)))) :=
    List.sorted_insertionSort _ _
  have hvle :
      List.Pairwise (fun r1 r2 => vle (getField r1 pk) (getField r2 pk) = true)
        (sortRecords [(pk, false)]
          (store.filter (fun r => wh.all (fun c => evalCond r c)))) :=
    hsorted.imp (fun h => by rwa [recordLe_single] at h)
  simp only [runSelect, List.isEmpty_cons, Bool.false_eq_true, if_false]
  rcases off with _ | o <;> rcases lim with _ | l
  · exact hvle
  · exact hvle.sublist (List.take_sublist _ _)
  · exact hvle.sublist (List.drop_sublist _ _)
  · exact hvle.sublist ((List.take_sublist _ _).trans (List.drop_sublist _ _))

/-- Claim C4: a `Fetch` build with no explicit order specification orders
by the first declared primary-key column ascending, so every execution
returns a sequence that is non-decreasing in that column; the model is a
pure function of the store and the statement, so repeated calls on
identical data return the same records in the same positions. -/
theorem fetch_default_order_sorted (mc : ModelClass) (fs : Option Schema)
    (fd : List (String × Value)) (limit offset : Option Nat)
    (store : List Record) (pk : String) (stmt : SelectStmt)
    (hpk : mc.primary_key.head? = some pk)
    (hb : fetch_build_query mc fs fd limit offset [] = .ok stmt) :
    stmt.orderBy = [(pk, false)] ∧
    List.Pairwise (fun r1 r2 => vle (getField r1 pk) (getField r2 pk) = true)
      (runSelect store stmt) := by
  rcases hv : validate_schema mc.name fs fd with e | validated
  · rw [fetch_build_query.eq_def, hv, except_bind_error] at hb
    cases hb
  · rw [fetch_build_query.eq_def, hv, except_bind_ok] at hb
    simp only [List.isEmpty_nil, Bool.not_true, Bool.false_eq_true, if_false, hpk] at hb
    cases hb
    exact ⟨rfl, runSelect_single_order_sorted store mc.name _ pk _ _⟩

/-- Witness for `fetch_default_order_sorted`: fetching all `User` rows
with no filter and no order from a two-record store. -/
theorem fetch_default_order_sorted_witness :
    userModel.primary_key.head? = some "id" ∧
    fetch_build_query userModel none [] none none []
      = .ok { model := "User", whereList := [], orderBy := [("id", false)],
              offsetVal := none, limitVal := none } ∧
    (({ model := "User", whereList := [], orderBy := [("id", false)],
        offsetVal := none, limitVal := none } : SelectStmt).orderBy
        = [("id", false)] ∧
     List.Pairwise (fun r1 r2 => vle (getField r1 "id") (getField r2 "id") = true)
       (runSelect [recBob, recAlice]
         { model := "User", whereList := [], orderBy := [("id", false)],
           offsetVal := none, limitVal := none })) :=
  ⟨rfl, rfl,
   fetch_default_order_sorted userModel none [] none none [recBob, recAlice]
     "id" _ rfl rfl⟩
